import Mathlib

/-!
Shallow embedding of the DCF valuation core of the `investomommy-calhacks`
repository (files `src/dcf/calc.py`, `src/dcf/router.py`,
`src/backend/dcf.py`).  Python floats are modelled as real numbers (exact
arithmetic), `None` as `Option`, and raised exceptions as `Except`.
-/

namespace Investomommy

/-! ### Python scalar model for `safe` (src/dcf/router.py lines 11-15) -/

/-- Model of a Python float value: a finite value (modelled as a rational,
which embeds every IEEE double) or one of the non-finite values `nan`,
`inf`, `-inf`. -/
inductive PFloat where
  | fin (q : ℚ)
  | nan
  | inf
  | ninf
deriving DecidableEq

/-- Model of a Python value passed to `safe`: `None`, a float, a string
(carrying the result of `float(s)`: `some x` when the string parses,
`none` when `float` raises `ValueError`), or any other object on which
`float` raises `TypeError`. -/
inductive PyVal where
  | pynone
  | pynum (x : PFloat)
  | pystr (parsed : Option PFloat)
  | pyobj
deriving DecidableEq

/-- Embedding of `safe(val, default)` (src/dcf/router.py lines 11-15 and
the identical src/backend/dcf.py lines 87-91): the body is
`float(val) if val is not None else float(default)` inside a `try`, and
any exception returns `float(default)`.  `float` applied to a float
returns it unchanged, including `nan` and `inf`. -/
def safe (val : PyVal) (default : PFloat) : PFloat :=
  match val with
  | .pynone => default
  | .pynum x => x
  | .pystr (some x) => x
  | .pystr none => default
  | .pyobj => default

/-! ### Quarterly trailing sum `_qsum` (src/dcf/router.py lines 71-79) -/

/-- Embedding of `_qsum(row, n)` (src/dcf/router.py lines 71-79, identical
src/backend/dcf.py lines 142-149).  A pandas row is modelled as
`Option (List (Option ℚ))`: `none` when `_row` returned `None` (label
absent), otherwise the list of cells, a cell being `none` when it holds a
missing value (NaN).  `dropna` is `List.filterMap id`, the slice `[:n]` is
`List.take n`, and `np.nansum` over the remaining (all finite) values is
`List.sum`, whose value on the empty list is `0.0`.  The `np.nan`
returned when the row is absent is modelled as `none`. -/
def qsum (row : Option (List (Option ℚ))) (n : Nat) : Option ℚ :=
  match row with
  | none => none
  | some cells => some (((cells.filterMap id).take n).sum)

/-! ### Core DCF math (src/dcf/calc.py) -/

/-- Embedding of `clamp(x, lo, hi) = max(lo, min(hi, x))`
(src/dcf/router.py lines 17-18, src/backend/dcf.py lines 93-94). -/
def clamp (x lo hi : ℝ) : ℝ :=
  max lo (min hi x)

/-- Embedding of `_discount_factor(rate, t) = (1.0 + rate) ** (-t)`
(src/dcf/calc.py lines 99-100); float `**` is real exponentiation,
modelled by `Real.rpow`.  The Python name starts with an underscore,
dropped here. -/
noncomputable def discount_factor (rate t : ℝ) : ℝ :=
  (1 + rate) ^ (-t)

/-- The terminal growth actually used inside `_terminal_value`
(src/dcf/calc.py lines 103-108): the guard
`if rate <= growth: growth = rate - 0.001` replaces the growth exactly
when `rate ≤ growth`. -/
noncomputable def tv_growth (rate growth : ℝ) : ℝ :=
  if rate ≤ growth then rate - 0.001 else growth

/-- Embedding of `_terminal_value(last_fcff, rate, growth)`
(src/dcf/calc.py lines 103-108): the Gordon formula
`last_fcff * (1 + g) / (rate - g)` evaluated at the guarded growth. -/
noncomputable def terminal_value (last_fcff rate growth : ℝ) : ℝ :=
  last_fcff * (1 + tv_growth rate growth) / (rate - tv_growth rate growth)

/-- Discount exponent of year `idx`: `(idx - 0.5) if midyear else idx`
(src/dcf/calc.py line 159; line 164 reuses it with `idx = n` for the
terminal value). -/
def expo (midyear : Bool) (idx : Nat) : ℝ :=
  if midyear then (idx : ℝ) - 0.5 else (idx : ℝ)

/-- Present value of the explicit FCFF path (src/dcf/calc.py lines
156-160): `sum over idx = 1..n of fcff[idx-1] * _discount_factor(rate,
expo midyear idx)`. -/
noncomputable def pv_explicit (fcff : List ℝ) (rate : ℝ) (midyear : Bool) : ℝ :=
  ∑ i in Finset.range fcff.length, fcff.getD i 0 * discount_factor rate (expo midyear (i + 1))

/-- Present value of the terminal value (src/dcf/calc.py lines 162-165):
`_terminal_value(fcff[-1], rate, growth) * _discount_factor(rate,
expo midyear n)`. -/
noncomputable def pv_terminal (fcff : List ℝ) (rate growth : ℝ) (midyear : Bool) : ℝ :=
  terminal_value (fcff.getLastD 0) rate growth * discount_factor rate (expo midyear fcff.length)

/-- Enterprise value `pv_explicit + pv_tv` (src/dcf/calc.py line 168). -/
noncomputable def enterprise_value (fcff : List ℝ) (rate growth : ℝ) (midyear : Bool) : ℝ :=
  pv_explicit fcff rate midyear + pv_terminal fcff rate growth midyear

/-- Equity value `enterprise_value + cash - debt` (src/dcf/calc.py line
169). -/
noncomputable def equity_value (fcff : List ℝ) (rate growth : ℝ) (midyear : Bool)
    (cash debt : ℝ) : ℝ :=
  enterprise_value fcff rate growth midyear + cash - debt

/-- Shares normalisation (src/dcf/calc.py lines 153-154):
`if shares_norm is None or shares_norm <= 0: shares_norm = 1e-6`. -/
noncomputable def shares_norm (shares_out : Option ℝ) : ℝ :=
  match shares_out with
  | none => 1e-6
  | some s => if s ≤ 0 then 1e-6 else s

/-- Per-share value `equity_value / shares_norm` (src/dcf/calc.py line
170). -/
noncomputable def per_share (fcff : List ℝ) (rate growth : ℝ) (midyear : Bool)
    (cash debt : ℝ) (shares_out : Option ℝ) : ℝ :=
  equity_value fcff rate growth midyear cash debt / shares_norm shares_out

/-- The `assumptions` block of the result dict (src/dcf/calc.py lines
179-187): the six named inputs plus the `extras` dict merged in
verbatim.  The extras payload is modelled as a key/value list. -/
structure Assumptions where
  wacc : ℝ
  terminal_growth : ℝ
  midyear : Bool
  cash : ℝ
  debt : ℝ
  shares_out : ℝ
  extras : List (String × ℝ)

/-- The result dict of `dcf_valuation` (src/dcf/calc.py lines 172-188),
with one field per key of the `out` literal. -/
structure ValuationResult where
  intrinsic_value_per_share : ℝ
  enterprise_value : ℝ
  equity_value : ℝ
  pv_explicit : ℝ
  pv_terminal : ℝ
  terminal_value : ℝ
  assumptions : Assumptions

/-- The literal key list of the dict returned by `dcf_valuation`
(src/dcf/calc.py lines 172-188), in source order. -/
def dcf_result_keys : List String :=
  ["intrinsic_value_per_share", "enterprise_value", "equity_value",
   "pv_explicit", "pv_terminal", "terminal_value", "assumptions"]

/-- The keys of the base valuation dict that `get_dcf` reads off the
`dcf_valuation` result (src/dcf/router.py lines 669-677); the spec's
`ValuationResult` entity lists the same fields. -/
def router_read_keys : List String :=
  ["enterprise_value", "equity_value", "intrinsic_value_per_share",
   "pv_of_explicit_fcff", "pv_of_terminal_value", "terminal_value_at_horizon",
   "discount_factors"]

/-- The `ValueError`s that `dcf_valuation` can raise (src/dcf/calc.py
lines 134-135 and 142-145). -/
inductive DcfError where
  | emptyFcff
  | missingRate
  | missingGrowth
deriving DecidableEq

/-- Embedding of `dcf_valuation` (src/dcf/calc.py lines 111-189).  The
alias parameters (`discount_rate`/`r`, `g`, `shares`/
`shares_outstanding`) are resolved by `next(...)` into a single rate,
growth and shares value; the embedding takes the resolved values, keeping
the `Option` so that the two `ValueError`s for a missing rate or growth
remain visible.  An empty `fcff` list raises first. -/
noncomputable def dcf_valuation (fcff : List ℝ) (wacc terminal_growth : Option ℝ)
    (midyear : Bool) (cash debt : ℝ) (shares_out : Option ℝ)
    (extras : List (String × ℝ)) : Except DcfError ValuationResult :=
  if fcff.isEmpty then .error .emptyFcff
  else
    match wacc, terminal_growth with
    | none, _ => .error .missingRate
    | some _, none => .error .missingGrowth
    | some rate, some growth =>
      .ok
        { intrinsic_value_per_share := per_share fcff rate growth midyear cash debt shares_out
          enterprise_value := enterprise_value fcff rate growth midyear
          equity_value := equity_value fcff rate growth midyear cash debt
          pv_explicit := pv_explicit fcff rate midyear
          pv_terminal := pv_terminal fcff rate growth midyear
          terminal_value := terminal_value (fcff.getLastD 0) rate growth
          assumptions :=
            { wacc := rate
              terminal_growth := growth
              midyear := midyear
              cash := cash
              debt := debt
              shares_out := shares_norm shares_out
              extras := extras } }

/-- The six numeric outputs of a `dcf_valuation` result, excluding the
diagnostic `assumptions` block. -/
def numeric_part (r : ValuationResult) : ℝ × ℝ × ℝ × ℝ × ℝ × ℝ :=
  (r.enterprise_value, r.equity_value, r.intrinsic_value_per_share,
   r.pv_explicit, r.pv_terminal, r.terminal_value)

/-! ### Router-level guard (src/dcf/router.py `get_dcf`) -/

/-- Errors observable from `get_dcf`: the explicit
`HTTPException(status_code=400)` for an unusable FCFF path (the spec's
`InsufficientDataError`), or an internal exception mapped to a 500. -/
inductive RouterError where
  | insufficientData
  | internal (e : DcfError)
deriving DecidableEq

/-- HTTP status attached to each router error (src/dcf/router.py line 625
raises 400; lines 732-733 map any other exception to 500). -/
def RouterError.status : RouterError → Nat
  | .insufficientData => 400
  | .internal _ => 500

/-- Embedding of the FCFF guard plus base valuation call of `get_dcf`
(src/dcf/router.py lines 624-646):
`if len(fcff) == 0 or fcff[0] == 0.0` raises `HTTPException(400, ...)`
before `dcf_valuation` runs; otherwise the base valuation is computed. -/
noncomputable def route_base_valuation (fcff : List ℝ) (wacc tg : ℝ) (midyear : Bool)
    (cash debt shares : ℝ) (extras : List (String × ℝ)) :
    Except RouterError ValuationResult :=
  if fcff.length = 0 ∨ fcff.getD 0 0 = 0 then .error .insufficientData
  else
    match dcf_valuation fcff (some wacc) (some tg) midyear cash debt (some shares) extras with
    | .ok r => .ok r
    | .error e => .error (.internal e)

/-! ### Sensitivity grid (src/backend/dcf.py lines 491-510) -/

/-- The per-cell growth adjustment of the backend sensitivity grid
(src/backend/dcf.py line 499): `tg_adj = min(tg, w - 0.001) if
(w - tg) <= 0.001 else tg`. -/
noncomputable def grid_tg_adj (w tg : ℝ) : ℝ :=
  if w - tg ≤ 0.001 then min tg (w - 0.001) else tg

/-- One cell of the backend sensitivity grid (src/backend/dcf.py lines
498-507): `dcf_valuation` is called at the adjusted growth, `_clean_num`
keeps the per-share value (the identity on the always finite reals of
this model), and the `except` clause turns any raised error into
`None`. -/
noncomputable def grid_cell (fcff : List ℝ) (w tg : ℝ) (midyear : Bool)
    (cash debt shares : ℝ) : Option ℝ :=
  match dcf_valuation fcff (some w) (some (grid_tg_adj w tg)) midyear cash debt
      (some shares) [] with
  | .ok res => some res.intrinsic_value_per_share
  | .error _ => none

/-- Embedding of `sensitivity_grid` (src/backend/dcf.py lines 491-510):
rows iterate the clamped terminal-growth axis, columns the clamped WACC
axis. -/
noncomputable def sensitivity_grid (fcff : List ℝ) (wacc_base tg_base cash debt shares : ℝ)
    (midyear : Bool) (step_wacc step_tg : ℝ) : List (List (Option ℝ)) :=
  [clamp (tg_base - step_tg) 0.01 0.06, tg_base, clamp (tg_base + step_tg) 0.01 0.06].map
    fun tg =>
      [clamp (wacc_base - step_wacc) 0.03 0.20, wacc_base,
       clamp (wacc_base + step_wacc) 0.03 0.20].map
        fun w => grid_cell fcff w tg midyear cash debt shares

/-! ### Growth path (src/dcf/router.py lines 379-390) -/

/-- Embedding of the decaying growth path built by `estimate_growths`
(src/dcf/router.py lines 380-383, identical src/backend/dcf.py lines
368-371): `for i in range(1, horizon + 1)` append
`g_used * 0.8 ** (i / horizon)`. -/
noncomputable def growth_path (g_used : ℝ) (horizon : Nat) : List ℝ :=
  (List.range horizon).map fun i : Nat =>
    g_used * (0.8 : ℝ) ^ (((i : ℝ) + 1) / (horizon : ℝ))

/-! ### Helper lemmas -/

/-- Removing the missing cells leaves nothing when every cell is missing. -/
lemma filterMap_id_replicate_none (k : Nat) :
    (List.replicate k (none : Option ℚ)).filterMap id = [] := by
  induction k with
  | zero => rfl
  | succ k ih => simp [List.replicate_succ, List.filterMap_cons, ih]

/-- Discount factors at natural exponents are ordinary inverse powers. -/
lemma discount_factor_nat (r : ℝ) (h : 0 ≤ 1 + r) (n : Nat) :
    discount_factor r (n : ℝ) = ((1 + r) ^ n)⁻¹ := by
  rw [discount_factor, Real.rpow_neg h, Real.rpow_natCast]

/-- The year-1 discount factor without midyear convention. -/
lemma df_expo_false_one (r : ℝ) (h : 0 ≤ 1 + r) :
    discount_factor r (expo false 1) = (1 + r)⁻¹ := by
  have e : expo false 1 = ((1 : Nat) : ℝ) := by simp [expo]
  rw [e, discount_factor_nat r h 1, pow_one]

/-- Explicit present value of a one-year path without midyear convention. -/
lemma pv_explicit_singleton (c r : ℝ) (h : 0 ≤ 1 + r) :
    pv_explicit [c] r false = c * (1 + r)⁻¹ := by
  simp [pv_explicit, Finset.sum_range_one, df_expo_false_one r h]

/-- Terminal present value of a one-year path without midyear convention. -/
lemma pv_terminal_singleton (c r g : ℝ) (h : 0 ≤ 1 + r) :
    pv_terminal [c] r g false = terminal_value c r g * (1 + r)⁻¹ := by
  simp [pv_terminal, df_expo_false_one r h]

/-- Enterprise value of a one-year path without midyear convention. -/
lemma enterprise_value_singleton (c r g : ℝ) (h : 0 ≤ 1 + r) :
    enterprise_value [c] r g false = (c + terminal_value c r g) * (1 + r)⁻¹ := by
  rw [enterprise_value, pv_explicit_singleton c r h, pv_terminal_singleton c r g h]
  ring

/-- When the rate strictly exceeds the growth the guard is inactive and
the Gordon formula uses the growth unchanged. -/
lemma terminal_value_of_lt {last rate growth : ℝ} (h : growth < rate) :
    terminal_value last rate growth = last * (1 + growth) / (rate - growth) := by
  unfold terminal_value tv_growth
  rw [if_neg (not_le.mpr h)]

/-- The last element read by `fcff[-1]` belongs to the list. -/
lemma getLastD_mem {l : List ℝ} (h : l ≠ []) : l.getLastD 0 ∈ l := by
  induction l with
  | nil => exact absurd rfl h
  | cons a t ih =>
    cases t with
    | nil => simp
    | cons b t' =>
      have h2 : (b :: t').getLastD 0 ∈ b :: t' := ih (by simp)
      simp only [List.getLastD_cons] at h2 ⊢
      exact List.mem_cons_of_mem a h2

/-- Every year of the explicit horizon has a positive discount exponent,
under either convention. -/
lemma expo_pos (my : Bool) {i : Nat} (hi : 1 ≤ i) : 0 < expo my i := by
  have h1 : (1 : ℝ) ≤ (i : ℝ) := by exact_mod_cast hi
  unfold expo
  split_ifs <;> norm_num <;> linarith

/-- Discount factors are positive when the gross rate is. -/
lemma discount_factor_pos {r : ℝ} (h : 0 < 1 + r) (t : ℝ) :
    0 < discount_factor r t :=
  Real.rpow_pos_of_pos h _

/-- Discount factors strictly decrease in the rate at positive
exponents. -/
lemma discount_factor_lt_rate {r₁ r₂ : ℝ} (t : ℝ) (h₁ : 0 < 1 + r₁)
    (h₁₂ : r₁ < r₂) (ht : 0 < t) :
    discount_factor r₂ t < discount_factor r₁ t := by
  have h₂ : (0 : ℝ) < 1 + r₂ := by linarith
  have hpow : (1 + r₁) ^ t < (1 + r₂) ^ t :=
    Real.rpow_lt_rpow h₁.le (by linarith) ht
  rw [discount_factor, discount_factor, Real.rpow_neg h₁.le, Real.rpow_neg h₂.le]
  exact inv_strictAnti₀ (Real.rpow_pos_of_pos h₁ t) hpow

/-- The explicit present value weakly decreases in the rate on nonnegative
FCFF paths. -/
lemma pv_explicit_le {r₁ r₂ : ℝ} (fcff : List ℝ) (my : Bool)
    (h₁ : 0 < 1 + r₁) (h₁₂ : r₁ < r₂) (hpos : ∀ x ∈ fcff, 0 ≤ x) :
    pv_explicit fcff r₂ my ≤ pv_explicit fcff r₁ my := by
  unfold pv_explicit
  refine Finset.sum_le_sum fun i hi => ?_
  have hlen : i < fcff.length := Finset.mem_range.mp hi
  have hc : 0 ≤ fcff.getD i 0 := by
    rw [List.getD_eq_getElem _ _ hlen]
    exact hpos _ (List.getElem_mem hlen)
  exact mul_le_mul_of_nonneg_left
    (discount_factor_lt_rate _ h₁ h₁₂ (expo_pos my (Nat.le_add_left 1 i))).le hc

/-- The terminal value is positive for a positive last cash flow below an
admissible rate. -/
lemma terminal_value_pos {last rate growth : ℝ} (hl : 0 < last)
    (hg : -1 < growth) (h : growth < rate) :
    0 < terminal_value last rate growth := by
  rw [terminal_value_of_lt h]
  exact div_pos (mul_pos hl (by linarith)) (by linarith)

/-- The terminal value strictly decreases in the rate. -/
lemma terminal_value_lt_rate {last growth r₁ r₂ : ℝ} (hl : 0 < last)
    (hg : -1 < growth) (h1 : growth < r₁) (h12 : r₁ < r₂) :
    terminal_value last r₂ growth < terminal_value last r₁ growth := by
  rw [terminal_value_of_lt (h1.trans h12), terminal_value_of_lt h1]
  exact div_lt_div_of_pos_left (mul_pos hl (by linarith)) (by linarith)
    (by linarith)

/-- The terminal value strictly increases in the growth below the rate. -/
lemma terminal_value_lt_growth {last r g₁ g₂ : ℝ} (hl : 0 < last)
    (hg : -1 < g₁) (h12 : g₁ < g₂) (h2 : g₂ < r) :
    terminal_value last r g₁ < terminal_value last r g₂ := by
  rw [terminal_value_of_lt (h12.trans h2), terminal_value_of_lt h2]
  rw [div_lt_div_iff₀ (by linarith) (by linarith)]
  nlinarith [mul_pos hl (mul_pos (sub_pos.mpr h12)
    (show (0 : ℝ) < 1 + r by linarith))]

/-- The discounted terminal value strictly decreases in the rate on
positive FCFF paths. -/
lemma pv_terminal_lt_rate (fcff : List ℝ) (my : Bool) (hne : fcff ≠ [])
    (hpos : ∀ x ∈ fcff, 0 < x) {g r₁ r₂ : ℝ} (hg : -1 < g) (h1 : g < r₁)
    (h12 : r₁ < r₂) :
    pv_terminal fcff r₂ g my < pv_terminal fcff r₁ g my := by
  have hlast : 0 < fcff.getLastD 0 := hpos _ (getLastD_mem hne)
  have h1r : (0 : ℝ) < 1 + r₁ := by linarith
  have hn : 1 ≤ fcff.length := List.length_pos.mpr hne
  unfold pv_terminal
  exact mul_lt_mul'' (terminal_value_lt_rate hlast hg h1 h12)
    (discount_factor_lt_rate _ h1r h12 (expo_pos my hn))
    (terminal_value_pos hlast hg (h1.trans h12)).le
    (discount_factor_pos (by linarith) _).le

/-! ### Theorems -/

/-- C2: `dcf_valuation` (src/dcf/calc.py) does not return the fields that
its caller `get_dcf` (src/dcf/router.py lines 669-677) and the spec's
`ValuationResult` entity read: the dict uses the keys `pv_explicit`,
`pv_terminal`, `terminal_value` and has no `discount_factors` key, so the
subscript `base["pv_of_explicit_fcff"]` raises `KeyError` on every
request. -/
theorem dcf_result_keys_mismatch :
    "discount_factors" ∉ dcf_result_keys ∧
    "pv_of_explicit_fcff" ∉ dcf_result_keys ∧
    "pv_of_terminal_value" ∉ dcf_result_keys ∧
    "terminal_value_at_horizon" ∉ dcf_result_keys ∧
    "pv_explicit" ∈ dcf_result_keys ∧
    "pv_terminal" ∈ dcf_result_keys ∧
    "terminal_value" ∈ dcf_result_keys ∧
    "pv_of_explicit_fcff" ∈ router_read_keys ∧
    "discount_factors" ∈ router_read_keys := by
  refine ⟨?_, ?_, ?_, ?_, ?_, ?_, ?_, ?_, ?_⟩ <;> decide

/-- C7 (amended): `safe` returns the default on `None` and on values
`float` cannot convert (unparseable strings, non-numeric objects), returns
every float argument unchanged — including the non-finite `nan`/`inf`,
contrary to the spec's "returns default on non-finite input" — and never
raises (it is a total function); the spec's three examples hold, with
`3.2 = 16/5`. -/
theorem safe_behaviour :
    ∀ (d x : PFloat) (p : PFloat),
      safe .pynone d = d ∧
      safe (.pynum x) d = x ∧
      safe (.pystr (some p)) d = p ∧
      safe (.pystr none) d = d ∧
      safe .pyobj d = d ∧
      safe .pynone (.fin 5) = .fin 5 ∧
      safe (.pystr none) (.fin 5) = .fin 5 ∧
      safe (.pynum (.fin (16/5))) (.fin 5) = .fin (16/5) :=
  fun _ _ _ => ⟨rfl, rfl, rfl, rfl, rfl, rfl, rfl, rfl⟩

/-- C7 counterexample: `safe(nan, 5.0)` returns `nan`, not the default
`5.0`, although `nan` is a non-finite input; the float branch of `safe`
passes non-finite numbers through. -/
theorem safe_nan_counterexample :
    safe (.pynum .nan) (.fin 5) = .nan ∧
    safe (.pynum .inf) (.fin 5) = .inf ∧
    PFloat.nan ≠ .fin 5 ∧ PFloat.inf ≠ .fin 5 :=
  ⟨rfl, rfl, by decide, by decide⟩

/-- C8 (amended): when the row exists, `_qsum` sums the first `n` finite
values (missing cells are skipped, not zero-filled: a leading missing cell
leaves the sum unchanged), and when zero finite values are available it
returns the number `0.0` (the sum of an empty slice); the NaN marker is
returned only when the row itself is absent. -/
theorem qsum_behaviour :
    ∀ (cells : List (Option ℚ)) (n k : Nat) (q : ℚ),
      qsum (some cells) n = some (((cells.filterMap id).take n).sum) ∧
      qsum (some (none :: cells)) n = qsum (some cells) n ∧
      qsum (some (some q :: cells)) (n + 1) = (qsum (some cells) n).map (fun s => q + s) ∧
      qsum (some (List.replicate k none)) n = some 0 ∧
      qsum none n = none := by
  intro cells n k q
  refine ⟨rfl, by simp [qsum], ?_, ?_, rfl⟩
  · simp [qsum, List.filterMap_cons]
  · simp [qsum, filterMap_id_replicate_none]

/-- C8 counterexample: a present series whose cells are all missing yields
the number `0.0` (`np.nansum` of the empty slice), not the absent marker
the claim requires. -/
theorem qsum_all_missing_counterexample :
    qsum (some [none, none]) 4 = some 0 ∧ (some (0 : ℚ) : Option ℚ) ≠ none :=
  ⟨rfl, by decide⟩

/-- C10: the numeric outputs of `dcf_valuation` do not depend on the
`extras` argument: two calls that agree on `fcff`, `wacc`,
`terminal_growth`, `midyear`, `cash`, `debt` and `shares_out` but pass
different extras dictionaries produce identical `enterprise_value`,
`equity_value`, `intrinsic_value_per_share`, `pv_explicit`, `pv_terminal`
and `terminal_value` (extras is only merged into the diagnostic
`assumptions` block). -/
theorem dcf_extras_noninterference :
    ∀ (fcff : List ℝ) (w g : Option ℝ) (my : Bool) (cash debt : ℝ)
      (sh : Option ℝ) (e₁ e₂ : List (String × ℝ)),
      Except.map numeric_part (dcf_valuation fcff w g my cash debt sh e₁)
        = Except.map numeric_part (dcf_valuation fcff w g my cash debt sh e₂) := by
  intro fcff w g my cash debt sh e₁ e₂
  by_cases hf : fcff.isEmpty <;>
    cases w <;> cases g <;>
      simp [dcf_valuation, hf, numeric_part, Except.map]

/-- C1 counterexample: at WACC `0.1` and growth `0.0995` the claimed
trigger condition `WACC − growth ≤ 0.001` holds, yet the guard in
`_terminal_value` (condition `rate <= growth`) does not fire: the growth
used in the Gordon formula stays `0.0995` instead of being reduced to
`WACC − 0.001 = 0.099`. -/
theorem guard_threshold_counterexample :
    (0.1 : ℝ) - 0.0995 ≤ 0.001 ∧
    tv_growth 0.1 0.0995 = 0.0995 ∧
    (0.0995 : ℝ) ≠ 0.1 - 0.001 := by
  refine ⟨by norm_num, ?_, by norm_num⟩
  unfold tv_growth
  rw [if_neg (by norm_num)]

/-- C1 (amended): the guard of `_terminal_value` fires exactly when
`WACC ≤ growth` (not when `WACC − growth ≤ 0.001`), reducing the growth to
`WACC − 0.001`; in every case the Gordon denominator `WACC − g_used` is
strictly positive, so for every non-empty FCFF path `dcf_valuation`
returns a result (no division by zero, all outputs finite reals), whose
terminal value is the Gordon formula at the guarded growth. -/
theorem terminal_guard_sound :
    ∀ rate growth : ℝ,
      0 < rate - tv_growth rate growth ∧
      (rate ≤ growth → tv_growth rate growth = rate - 0.001) ∧
      (growth < rate → tv_growth rate growth = growth) ∧
      (∀ (fcff : List ℝ) (my : Bool) (cash debt : ℝ) (sh : Option ℝ)
         (ex : List (String × ℝ)), fcff ≠ [] →
        ∃ r : ValuationResult,
          dcf_valuation fcff (some rate) (some growth) my cash debt sh ex = .ok r ∧
          r.terminal_value
            = fcff.getLastD 0 * (1 + tv_growth rate growth)
                / (rate - tv_growth rate growth)) := by
  intro rate growth
  have hpos : 0 < rate - tv_growth rate growth := by
    unfold tv_growth
    split_ifs with h
    · norm_num
    · linarith [not_le.mp h]
  refine ⟨hpos, ?_, ?_, ?_⟩
  · intro h; unfold tv_growth; rw [if_pos h]
  · intro h; unfold tv_growth; rw [if_neg (not_le.mpr h)]
  · intro fcff my cash debt sh ex hne
    cases fcff with
    | nil => exact absurd rfl hne
    | cons a t => exact ⟨_, rfl, rfl⟩

/-- C1 witness: at WACC `0.05` and growth `0.06` (growth above WACC) the
guard fires, the denominator is `0.001 > 0`, and the valuation of the
path `[1]` succeeds. -/
theorem terminal_guard_sound_witness :
    0 < (0.05 : ℝ) - tv_growth 0.05 0.06 ∧
    tv_growth 0.05 0.06 = 0.05 - 0.001 ∧
    (∃ r : ValuationResult,
      dcf_valuation [1] (some 0.05) (some 0.06) false 0 0 none [] = .ok r ∧
      r.terminal_value
        = ([1] : List ℝ).getLastD 0 * (1 + tv_growth 0.05 0.06)
            / (0.05 - tv_growth 0.05 0.06)) :=
  ⟨(terminal_guard_sound 0.05 0.06).1,
   (terminal_guard_sound 0.05 0.06).2.1 (by norm_num),
   (terminal_guard_sound 0.05 0.06).2.2.2 [1] false 0 0 none [] (by simp)⟩

/-- C3: the router guard (src/dcf/router.py lines 624-625) signals the
insufficient-data error, carried as HTTP 400, exactly when the FCFF path
is empty or its first value is exactly zero; for every non-empty path with
non-zero first value no error is raised and a valuation result is
returned. -/
theorem route_insufficient_data :
    ∀ (fcff : List ℝ) (w tg : ℝ) (my : Bool) (cash debt sh : ℝ)
      (ex : List (String × ℝ)),
      ((fcff = [] ∨ fcff.getD 0 0 = 0) →
        route_base_valuation fcff w tg my cash debt sh ex
            = .error .insufficientData ∧
        (RouterError.insufficientData).status = 400) ∧
      (fcff ≠ [] → fcff.getD 0 0 ≠ 0 →
        ∃ r, route_base_valuation fcff w tg my cash debt sh ex = .ok r) := by
  intro fcff w tg my cash debt sh ex
  constructor
  · intro h
    refine ⟨?_, rfl⟩
    unfold route_base_valuation
    rw [if_pos]
    rcases h with h | h
    · left; simp [h]
    · right; exact h
  · intro h1 h2
    have hcond : ¬(fcff.length = 0 ∨ fcff.getD 0 0 = 0) := by
      push_neg
      exact ⟨fun hl => h1 (List.length_eq_zero.mp hl), h2⟩
    unfold route_base_valuation
    rw [if_neg hcond]
    cases fcff with
    | nil => exact absurd rfl h1
    | cons a t => exact ⟨_, rfl⟩

/-- C3 witness: the empty path yields the 400 insufficient-data error,
while the path `[5, 6]` is valuated without error. -/
theorem route_insufficient_data_witness :
    (route_base_valuation [] 0.08 0.02 true 0 0 100 []
        = .error .insufficientData ∧
      (RouterError.insufficientData).status = 400) ∧
    (∃ r, route_base_valuation [5, 6] 0.08 0.02 true 0 0 100 [] = .ok r) :=
  ⟨(route_insufficient_data [] 0.08 0.02 true 0 0 100 []).1 (Or.inl rfl),
   (route_insufficient_data [5, 6] 0.08 0.02 true 0 0 100 []).2
     (by simp) (by norm_num)⟩

/-- C4 counterexample: calling `dcf_valuation` on the path `[1]` with
WACC `0.05`, growth `0.02`, no midyear, zero cash and debt and
`shares_out = 0` returns the numeric per-share value
`equity_value × 10⁶ = 10⁸/3` — the zero shares are floored to `1e-6`, and
the result is a finite number, not a null marker. -/
theorem dcf_shares_zero_counterexample :
    Except.map ValuationResult.intrinsic_value_per_share
        (dcf_valuation [1] (some 0.05) (some 0.02) false 0 0 (some 0) [])
      = .ok (100000000 / 3 : ℝ) := by
  have hEV : enterprise_value [1] 0.05 0.02 false = 100 / 3 := by
    rw [enterprise_value_singleton 1 0.05 0.02 (by norm_num),
        terminal_value_of_lt (by norm_num : (0.02 : ℝ) < 0.05)]
    norm_num
  have hps : per_share [1] 0.05 0.02 false 0 0 (some 0) = 100000000 / 3 := by
    simp only [per_share, shares_norm, equity_value]
    rw [if_pos (le_refl (0 : ℝ)), hEV]
    norm_num
  simp [dcf_valuation, Except.map, hps]

/-- C4 (amended): a missing, zero or negative `shares_out` is floored to
`1e-6`, so the per-share value is the numeric `equity_value × 10⁶` (not a
null and not an error), while enterprise and equity value are computed
independently of the shares; for `shares_out > 0` the per-share value is
`equity_value / shares_out`. -/
theorem dcf_shares_floor :
    ∀ (fcff : List ℝ) (rate growth : ℝ) (my : Bool) (cash debt : ℝ),
      per_share fcff rate growth my cash debt none
          = equity_value fcff rate growth my cash debt * 1000000 ∧
      (∀ s : ℝ, s ≤ 0 → per_share fcff rate growth my cash debt (some s)
          = equity_value fcff rate growth my cash debt * 1000000) ∧
      (∀ s : ℝ, 0 < s → per_share fcff rate growth my cash debt (some s)
          = equity_value fcff rate growth my cash debt / s) := by
  intro fcff rate growth my cash debt
  refine ⟨?_, ?_, ?_⟩
  · simp only [per_share, shares_norm]
    rw [div_eq_mul_inv]
    norm_num
  · intro s hs
    simp only [per_share, shares_norm]
    rw [if_pos hs, div_eq_mul_inv]
    norm_num
  · intro s hs
    simp only [per_share, shares_norm]
    rw [if_neg (not_le.mpr hs)]

/-- C4 witness: the floor applies at `shares_out = -2`, and positive
shares divide the equity value as usual. -/
theorem dcf_shares_floor_witness :
    per_share [1] 0.05 0.02 false 0 0 (some (-2))
        = equity_value [1] 0.05 0.02 false 0 0 * 1000000 ∧
    per_share [1] 0.05 0.02 false 0 0 (some 4)
        = equity_value [1] 0.05 0.02 false 0 0 / 4 :=
  ⟨(dcf_shares_floor [1] 0.05 0.02 false 0 0).2.1 (-2) (by norm_num),
   (dcf_shares_floor [1] 0.05 0.02 false 0 0).2.2 4 (by norm_num)⟩

/-- C5 counterexample: the claim quantifies over every FCFF path, but on
the (all-negative) path `[-1]` with terminal growth `0.02` and WACCs
`0.05 < 0.1`, both above the growth, the enterprise value at the smaller
WACC is strictly smaller, not strictly greater. -/
theorem enterprise_value_negative_fcff_counterexample :
    (0.02 : ℝ) < 0.05 ∧ (0.05 : ℝ) < 0.1 ∧
    enterprise_value [-1] 0.05 0.02 false < enterprise_value [-1] 0.1 0.02 false := by
  refine ⟨by norm_num, by norm_num, ?_⟩
  rw [enterprise_value_singleton (-1) 0.05 0.02 (by norm_num),
      enterprise_value_singleton (-1) 0.1 0.02 (by norm_num),
      terminal_value_of_lt (by norm_num : (0.02 : ℝ) < 0.05),
      terminal_value_of_lt (by norm_num : (0.02 : ℝ) < 0.1)]
  norm_num

/-- C5 (amended): on every non-empty, strictly positive FCFF path, for
growth above `-1` and WACCs above the growth, the enterprise value of
`dcf_valuation` strictly decreases as the constant WACC increases, and
strictly increases as the terminal growth increases below the WACC. -/
theorem enterprise_value_strict_monotone :
    ∀ (fcff : List ℝ) (my : Bool), fcff ≠ [] → (∀ x ∈ fcff, 0 < x) →
      (∀ g w₁ w₂ : ℝ, -1 < g → g < w₁ → w₁ < w₂ →
        enterprise_value fcff w₂ g my < enterprise_value fcff w₁ g my) ∧
      (∀ w g₁ g₂ : ℝ, -1 < g₁ → g₁ < g₂ → g₂ < w →
        enterprise_value fcff w g₁ my < enterprise_value fcff w g₂ my) := by
  intro fcff my hne hpos
  constructor
  · intro g w₁ w₂ hg h1 h12
    have h1r : (0 : ℝ) < 1 + w₁ := by linarith
    have hpe := pv_explicit_le fcff my h1r h12 fun x hx => (hpos x hx).le
    have hpt := pv_terminal_lt_rate fcff my hne hpos hg h1 h12
    unfold enterprise_value
    linarith
  · intro w g₁ g₂ hg h12 h2
    have hlast : 0 < fcff.getLastD 0 := hpos _ (getLastD_mem hne)
    have hdf : 0 < discount_factor w (expo my fcff.length) :=
      discount_factor_pos (by linarith) _
    have htv := terminal_value_lt_growth hlast hg h12 h2
    have hmul := mul_lt_mul_of_pos_right htv hdf
    unfold enterprise_value pv_terminal
    linarith

/-- C5 witness: on the path `[1]`, lowering the WACC from `0.06` to
`0.05` (growth `0.02`) strictly raises the enterprise value, and raising
the growth from `0.02` to `0.03` (WACC `0.05`) strictly raises it. -/
theorem enterprise_value_strict_monotone_witness :
    enterprise_value [1] 0.06 0.02 false < enterprise_value [1] 0.05 0.02 false ∧
    enterprise_value [1] 0.05 0.02 false < enterprise_value [1] 0.05 0.03 false := by
  have h := enterprise_value_strict_monotone [1] false (by simp)
    (by intro x hx; rw [List.mem_singleton] at hx; rw [hx]; norm_num)
  exact ⟨h.1 0.02 0.05 0.06 (by norm_num) (by norm_num) (by norm_num),
         h.2 0.05 0.02 0.03 (by norm_num) (by norm_num) (by norm_num)⟩

/-- A grid cell on the empty path: `dcf_valuation` raises, the `except`
clause yields `None`. -/
lemma grid_cell_nil (w tg : ℝ) (my : Bool) (cash debt shares : ℝ) :
    grid_cell [] w tg my cash debt shares = none := rfl

/-- A grid cell on a non-empty path is the per-share value at the
adjusted growth. -/
lemma grid_cell_eval (fcff : List ℝ) (hne : fcff ≠ []) (w tg : ℝ) (my : Bool)
    (cash debt shares : ℝ) :
    grid_cell fcff w tg my cash debt shares
      = some (per_share fcff w (grid_tg_adj w tg) my cash debt (some shares)) := by
  cases fcff with
  | nil => exact absurd rfl hne
  | cons a t => rfl

/-- C6 counterexample: with the path `[1]`, base WACC `0.05` and base
growth `0.0495` (so `0 < WACC − growth = 0.0005 ≤ 0.001`) the grid's
center cell is computed at the adjusted growth `0.049` and equals
`some 1000`, while the base valuation used by `get_dcf` keeps the growth
`0.0495` and has per-share value `2000`: the center cell differs from the
base valuation. -/
theorem sensitivity_center_counterexample :
    ((sensitivity_grid [1] 0.05 0.0495 0 0 1 false 0.015 0.005).getD 1 []).getD 1 none
        = some 1000 ∧
    per_share [1] 0.05 0.0495 false 0 0 (some 1) = 2000 ∧
    (some (1000 : ℝ) : Option ℝ) ≠ some 2000 := by
  have hEVb : enterprise_value [1] 0.05 0.0495 false = 2000 := by
    rw [enterprise_value_singleton 1 0.05 0.0495 (by norm_num),
        terminal_value_of_lt (by norm_num : (0.0495 : ℝ) < 0.05)]
    norm_num
  have hbase : per_share [1] 0.05 0.0495 false 0 0 (some 1) = 2000 := by
    simp only [per_share, shares_norm, equity_value]
    rw [if_neg (by norm_num : ¬(1 : ℝ) ≤ 0), hEVb]
    norm_num
  have hEVc : enterprise_value [1] 0.05 0.049 false = 1000 := by
    rw [enterprise_value_singleton 1 0.05 0.049 (by norm_num),
        terminal_value_of_lt (by norm_num : (0.049 : ℝ) < 0.05)]
    norm_num
  have hadj : grid_tg_adj 0.05 0.0495 = 0.049 := by
    unfold grid_tg_adj
    rw [if_pos (by norm_num : (0.05 : ℝ) - 0.0495 ≤ 0.001)]
    norm_num
  have hcell : grid_cell [1] 0.05 0.0495 false 0 0 1 = some 1000 := by
    rw [grid_cell_eval [1] (by simp) 0.05 0.0495 false 0 0 1, hadj]
    simp only [per_share, shares_norm, equity_value]
    rw [if_neg (by norm_num : ¬(1 : ℝ) ≤ 0), hEVc]
    norm_num
  refine ⟨?_, hbase, by simp⟩
  show grid_cell [1] 0.05 0.0495 false 0 0 1 = some 1000
  exact hcell

/-- C6 (amended): for every input the backend `sensitivity_grid` returns
a 3×3 matrix; a cell whose `dcf_valuation` call raises is reported as a
null entry without aborting the grid (on the empty path all nine cells
are null); and the center cell equals the base valuation's per-share
value whenever `wacc_base − tg_base > 0.001`, so that the grid's
growth-adjustment `min(tg, w − 0.001)` is inactive there. -/
theorem sensitivity_grid_spec :
    ∀ (fcff : List ℝ) (w tg cash debt shares : ℝ) (my : Bool) (sw st : ℝ),
      (sensitivity_grid fcff w tg cash debt shares my sw st).length = 3 ∧
      (∀ row ∈ sensitivity_grid fcff w tg cash debt shares my sw st,
        row.length = 3) ∧
      (fcff = [] → sensitivity_grid fcff w tg cash debt shares my sw st
          = [[none, none, none], [none, none, none], [none, none, none]]) ∧
      (0.001 < w - tg → fcff ≠ [] →
        ((sensitivity_grid fcff w tg cash debt shares my sw st).getD 1 []).getD 1 none
          = some (per_share fcff w tg my cash debt (some shares))) := by
  intro fcff w tg cash debt shares my sw st
  refine ⟨by simp [sensitivity_grid], ?_, ?_, ?_⟩
  · intro row hrow
    simp only [sensitivity_grid, List.map_cons, List.map_nil,
      List.mem_cons, List.not_mem_nil, or_false] at hrow
    rcases hrow with h | h | h <;> subst h <;> simp
  · intro h
    subst h
    simp [sensitivity_grid, grid_cell_nil]
  · intro hgt hne
    have hadj : grid_tg_adj w tg = tg := by
      unfold grid_tg_adj
      rw [if_neg (by linarith)]
    show grid_cell fcff w tg my cash debt shares = _
    rw [grid_cell_eval fcff hne w tg my cash debt shares, hadj]

/-- C6 witness: on the path `[1]` with base WACC `0.05` and base growth
`0.03`, the grid is 3×3 and its center cell is exactly the base
per-share value. -/
theorem sensitivity_grid_spec_witness :
    (sensitivity_grid [1] 0.05 0.03 0 0 1 false 0.015 0.005).length = 3 ∧
    ((sensitivity_grid [1] 0.05 0.03 0 0 1 false 0.015 0.005).getD 1 []).getD 1 none
        = some (per_share [1] 0.05 0.03 false 0 0 (some 1)) := by
  have h := sensitivity_grid_spec [1] 0.05 0.03 0 0 1 false 0.015 0.005
  exact ⟨h.1, h.2.2.2 (by norm_num) (by simp)⟩

/-- Element `i` (0-based; year `i+1`) of the growth path. -/
lemma growth_path_getD (g : ℝ) (N i : Nat) (hi : i < N) :
    (growth_path g N).getD i 0 = g * (0.8 : ℝ) ^ (((i : ℝ) + 1) / (N : ℝ)) := by
  unfold growth_path
  have hlen :
      i < ((List.range N).map fun j : Nat =>
        g * (0.8 : ℝ) ^ (((j : ℝ) + 1) / (N : ℝ))).length := by
    rw [List.length_map, List.length_range]
    exact hi
  rw [List.getD_eq_getElem _ _ hlen, List.getElem_map, List.getElem_range]

/-- The tenth power of `0.8 ^ (1/10)` recovers `0.8`. -/
lemma rpow_tenth_pow : (((0.8 : ℝ) ^ ((1 : ℝ) / 10)) ^ (10 : ℕ)) = 0.8 := by
  rw [← Real.rpow_natCast ((0.8 : ℝ) ^ ((1 : ℝ) / 10)) 10,
      ← Real.rpow_mul (by norm_num : (0 : ℝ) ≤ 0.8)]
  have h : (1 : ℝ) / 10 * ((10 : ℕ) : ℝ) = 1 := by push_cast; ring
  rw [h, Real.rpow_one]

/-- Two-sided bound for the year-1 decay factor `0.8 ^ 0.1`. -/
lemma rpow_tenth_bounds :
    (0.977 : ℝ) < (0.8 : ℝ) ^ ((1 : ℝ) / 10) ∧
    (0.8 : ℝ) ^ ((1 : ℝ) / 10) < 0.978 := by
  constructor
  · have hp : (0.977 : ℝ) ^ (10 : ℕ) < ((0.8 : ℝ) ^ ((1 : ℝ) / 10)) ^ (10 : ℕ) := by
      rw [rpow_tenth_pow]; norm_num
    exact lt_of_pow_lt_pow_left₀ 10
      (Real.rpow_pos_of_pos (by norm_num) _).le hp
  · have hp : ((0.8 : ℝ) ^ ((1 : ℝ) / 10)) ^ (10 : ℕ) < (0.978 : ℝ) ^ (10 : ℕ) := by
      rw [rpow_tenth_pow]; norm_num
    exact lt_of_pow_lt_pow_left₀ 10 (by norm_num) hp

/-- C9 counterexample: the claim's non-increasing property fails for a
negative blended growth (reachable, since `g_used` is clamped to
`[-0.05, 0.20]`): at `g_used = -0.05` and horizon `4` the path strictly
increases from year 1 to year 2. -/
theorem growth_path_negative_counterexample :
    (growth_path (-0.05) 4).getD 0 0 < (growth_path (-0.05) 4).getD 1 0 := by
  rw [growth_path_getD (-0.05) 4 0 (by norm_num),
      growth_path_getD (-0.05) 4 1 (by norm_num)]
  have hx : (((0 : Nat) : ℝ) + 1) / ((4 : Nat) : ℝ) = (1 : ℝ) / 4 := by
    push_cast; norm_num
  have hy : (((1 : Nat) : ℝ) + 1) / ((4 : Nat) : ℝ) = (1 : ℝ) / 2 := by
    push_cast; norm_num
  rw [hx, hy]
  have h : (0.8 : ℝ) ^ ((1 : ℝ) / 2) < (0.8 : ℝ) ^ ((1 : ℝ) / 4) :=
    Real.rpow_lt_rpow_of_exponent_gt (by norm_num) (by norm_num) (by norm_num)
  linarith

/-- C9 (amended): for every horizon `N ∈ [3, 20]` and every blended
growth `g_used`, year `i` of the projected path equals
`g_used × 0.8^(i/N)` and the final year equals `0.8 × g_used`; the
sequence is non-increasing for every non-negative `g_used` (for negative
`g_used` it increases instead); and for `N = 10`, `g_used = 10%` the
year-1 growth lies in `(9.77%, 9.78%)` (so `≈ 9.78%`, just below the
spec's rounded `9.79%`). -/
theorem growth_path_spec :
    ∀ (g : ℝ) (N : Nat), 3 ≤ N → N ≤ 20 →
      (∀ i : Nat, i < N →
        (growth_path g N).getD i 0 = g * (0.8 : ℝ) ^ (((i : ℝ) + 1) / (N : ℝ))) ∧
      (growth_path g N).getD (N - 1) 0 = 0.8 * g ∧
      (0 ≤ g → ∀ i : Nat, i + 1 < N →
        (growth_path g N).getD (i + 1) 0 ≤ (growth_path g N).getD i 0) ∧
      0.0977 < (growth_path 0.1 10).getD 0 0 ∧
      (growth_path 0.1 10).getD 0 0 < 0.0978 := by
  intro g N h3 h20
  have hN0 : (N : ℝ) ≠ 0 := Nat.cast_ne_zero.mpr (by omega)
  have hNpos : (0 : ℝ) < (N : ℝ) := by
    have : 0 < N := by omega
    exact_mod_cast this
  have hfirst :
      (growth_path 0.1 10).getD 0 0 = 0.1 * (0.8 : ℝ) ^ ((1 : ℝ) / 10) := by
    rw [growth_path_getD 0.1 10 0 (by norm_num)]
    have he : (((0 : Nat) : ℝ) + 1) / ((10 : Nat) : ℝ) = (1 : ℝ) / 10 := by
      push_cast; norm_num
    rw [he]
  refine ⟨fun i hi => growth_path_getD g N i hi, ?_, ?_, ?_, ?_⟩
  · have hlt : N - 1 < N := by omega
    rw [growth_path_getD g N (N - 1) hlt]
    have hc : ((N - 1 : Nat) : ℝ) + 1 = (N : ℝ) := by
      have h1 : 1 ≤ N := by omega
      push_cast [Nat.cast_sub h1]
      ring
    rw [hc, div_self hN0, Real.rpow_one]
    ring
  · intro hg i hi
    have hi1 : i < N := by omega
    rw [growth_path_getD g N (i + 1) hi, growth_path_getD g N i hi1]
    refine mul_le_mul_of_nonneg_left ?_ hg
    refine Real.rpow_le_rpow_of_exponent_ge (by norm_num) (by norm_num) ?_
    rw [div_le_div_iff_of_pos_right hNpos]
    push_cast
    linarith
  · rw [hfirst]
    linarith [rpow_tenth_bounds.1]
  · rw [hfirst]
    linarith [rpow_tenth_bounds.2]

/-- C9 witness: at `g_used = 10%`, horizon `10`, the year-10 growth is
`0.8 × 10% = 8%`, the path step from year 1 to year 2 is non-increasing,
and the year-1 growth exceeds `9.77%`. -/
theorem growth_path_spec_witness :
    (growth_path 0.1 10).getD (10 - 1) 0 = 0.8 * 0.1 ∧
    (growth_path 0.1 10).getD (0 + 1) 0 ≤ (growth_path 0.1 10).getD 0 0 ∧
    0.0977 < (growth_path 0.1 10).getD 0 0 := by
  have h := growth_path_spec 0.1 10 (by norm_num) (by norm_num)
  exact ⟨h.2.1, h.2.2.1 (by norm_num) 0 (by norm_num), h.2.2.2.1⟩

end Investomommy
